import Mathlib

/-!
Shallow embedding of the credential-sharing service (`EECredentialsService`)
and the tag-relation helper module of the n8n backend fragment, together
with theorems settling the specification claims about them.

Effectful functions that read the ambient database (reached through a global
connection in the source) are embedded as pure functions taking the database
state as an explicit argument; mutations additionally return the updated
state.  External collaborators whose code is not part of this fragment
(the relation store's save/delete primitives, `CredentialsService.getSharing`,
`RoleService.get`) are modelled from the specification and marked as such.
-/

/- ----------------------------------------------------------------
   Tag relation service: data model
   ---------------------------------------------------------------- -/

/-- A JavaScript value as far as the tag-name validator can observe it:
`validateName` receives `name: unknown` and distinguishes `undefined`,
strings, and everything else (via `typeof name !== 'string'`). -/
inductive JSValue where
  | undef : JSValue
  | null : JSValue
  | bool : Bool → JSValue
  | num : Int → JSValue
  | str : String → JSValue
  deriving DecidableEq, Repr

/-- A row of the `tag_entity` table (`ITagDb`, minus timestamps): numeric
`id` and string `name`. -/
structure TagEntity where
  id : Nat
  name : String
  deriving DecidableEq, Repr

/-- A row of the `workflows_tags` link table: `{workflowId, tagId}`, both
handled as strings by this module's functions. -/
structure WorkflowTagLink where
  workflowId : String
  tagId : String
  deriving DecidableEq, Repr

/-- A row of the `workflow_entity` table, as far as the usage-count query
observes it (only `id` is consulted). -/
structure WorkflowEntity where
  id : String
  deriving DecidableEq, Repr

/-- The slice of the relation store the tag module touches: the
`tag_entity`, `workflows_tags` and `workflow_entity` tables. -/
structure TagDb where
  tags : List TagEntity
  links : List WorkflowTagLink
  workflows : List WorkflowEntity
  deriving DecidableEq, Repr

/-- `ResponseHelper.ResponseError(message, undefined, httpStatusCode)` as
thrown by this module: a message plus an HTTP status code. -/
structure ResponseError where
  message : String
  httpStatusCode : Nat
  deriving DecidableEq, Repr

/-- `TAG_NAME_LENGTH_LIMIT` from the source. -/
def TAG_NAME_LENGTH_LIMIT : Nat := 24

/- ----------------------------------------------------------------
   Tag relation service: validators and checks
   ---------------------------------------------------------------- -/

/-- `validateName(name: unknown)`: throws 400 if `name` is `undefined`,
then if it is not a string, then if its length is outside 1..24; otherwise
returns normally.  The database state is passed in because the source runs
against an ambient global connection; the body never consults it. -/
def validateName (_db : TagDb) (name : JSValue) : Except ResponseError Unit :=
  match name with
  | .undef =>
      .error ⟨"Property \x27name\x27 missing from request body.", 400⟩
  | .str s =>
      if s.length ≤ 0 ∨ s.length > TAG_NAME_LENGTH_LIMIT then
        .error ⟨"Tag name must be 1 to 24 characters long.", 400⟩
      else
        .ok ()
  | _ =>
      .error ⟨"Property \x27name\x27 must be a string.", 400⟩

/-- `checkRelated(workflowId, tagId)`: selects the `workflows_tags` rows
with `workflowId = :workflowId AND tagId = :tagId` and reports whether the
result is non-empty. -/
def checkRelated (db : TagDb) (workflowId : String) (tagId : String) : Bool :=
  (db.links.filter
    (fun l => l.workflowId = workflowId ∧ l.tagId = tagId)).length > 0

/-- `exists(id)`: `findOne` on `tag_entity` by `id` (the string parameter is
compared against the numeric column, which the store coerces by
stringification); throws 400 if no row is found. -/
def «exists» (db : TagDb) (id : String) : Except ResponseError Unit :=
  match db.tags.find? (fun t => toString t.id = id) with
  | none => .error ⟨s!"Tag with ID {id} does not exist.", 400⟩
  | some _ => .ok ()

/-- `validateRelations(workflowId, tagIds)`: for each tag ID in order, runs
`checkRelated` and throws 400 on the first related pair. -/
def validateRelations (db : TagDb) (workflowId : String) :
    List String → Except ResponseError Unit
  | [] => .ok ()
  | tagId :: rest =>
      if checkRelated db workflowId tagId then
        .error ⟨s!"Workflow ID {workflowId} and tag ID {tagId} are already related.", 400⟩
      else
        validateRelations db workflowId rest

/-- The sequence of membership checks (`checkRelated` calls) that the loop
in `validateRelations` performs, in order: the loop stops right after the
first ID found to be related. -/
def validateRelationsChecks (db : TagDb) (workflowId : String) :
    List String → List String
  | [] => []
  | tagId :: rest =>
      if checkRelated db workflowId tagId then [tagId]
      else tagId :: validateRelationsChecks db workflowId rest

/- ----------------------------------------------------------------
   Tag relation service: queries and response shaping
   ---------------------------------------------------------------- -/

/-- The lookup object `tagMap` that `sortByRequestOrder` builds with
`reduce`: a JavaScript object keyed by `tag.id.toString()`, where a
later assignment to the same key overwrites an earlier one. -/
def buildTagMap (tagsResponse : List TagEntity) : String → Option TagEntity :=
  tagsResponse.foldl
    (fun acc tag => fun key => if key = toString tag.id then some tag else acc key)
    (fun _ => none)

/-- `sortByRequestOrder(tagsResponse, tagIds)`: builds `tagMap` with
`reduce`, then maps each requested ID to `tagMap[tagId]` (which is
`undefined`, here `none`, when the key is absent). -/
def sortByRequestOrder (tagsResponse : List TagEntity) (tagIds : List String) :
    List (Option TagEntity) :=
  let tagMap := buildTagMap tagsResponse
  tagIds.map (fun tagId => tagMap tagId)

/-- One row of the `getAllTagsWithUsageCount` result:
`{id: number, name: string, usageCount: number}`. -/
structure TagUsageRow where
  id : Nat
  name : String
  usageCount : Nat
  deriving DecidableEq, Repr

/-- The rows the double `LEFT JOIN` of `getAllTagsWithUsageCount` produces
for a single `tag_entity` row: first `workflows_tags` is joined on
`workflows_tags.tagId = tag_entity.id`, then `workflow_entity` on
`workflows_tags.workflowId = workflow_entity.id`.  Each resulting row is
recorded as the (possibly NULL) `workflow_entity.id` it carries, the value
`COUNT(workflow_entity.id)` counts. -/
def leftJoinWorkflowIds (db : TagDb) (t : TagEntity) : List (Option String) :=
  let links := db.links.filter (fun l => l.tagId = toString t.id)
  if links.isEmpty then [none]
  else
    links.flatMap (fun l =>
      let ws := db.workflows.filter (fun w => w.id = l.workflowId)
      if ws.isEmpty then [none] else ws.map (fun w => some w.id))

/-- `getAllTagsWithUsageCount()`: selects every tag with
`COUNT(workflow_entity.id)` over the double left join, grouped by
`tag_entity.id`.  The embedding iterates over the tag rows directly, which
matches `GROUP BY tag_entity.id` because `id` is the table's primary key
(one group per tag row). -/
def getAllTagsWithUsageCount (db : TagDb) : List TagUsageRow :=
  db.tags.map (fun t =>
    { id := t.id
      name := t.name
      usageCount :=
        ((leftJoinWorkflowIds db t).filter (fun o => o.isSome)).length })

/- ----------------------------------------------------------------
   Credential sharing service: data model
   ---------------------------------------------------------------- -/

/-- A user, as far as this service observes one: an identifier plus whether
the user holds the elevated "global owner" role (relevant only to the
global-owner bypass that `isOwned` explicitly disables). -/
structure User where
  id : String
  isGlobalOwner : Bool
  deriving DecidableEq, Repr

/-- A credential record (payload opaque to this core). -/
structure CredentialsEntity where
  id : String
  deriving DecidableEq, Repr

/-- A role: immutable reference data identified by a (scope, name) pair. -/
structure Role where
  scope : String
  name : String
  deriving DecidableEq, Repr

/-- A `SharedCredentials` row: the join entity {credential, user, role}. -/
structure SharedCredentials where
  credentials : CredentialsEntity
  user : User
  role : Role
  deriving DecidableEq, Repr

/-- The slice of the relation store the sharing service touches: the
`SharedCredentials` collection and the role reference table consulted by
role lookup. -/
structure CredDb where
  sharedCredentials : List SharedCredentials
  roles : List Role
  deriving DecidableEq, Repr

/-- The result shape of `isOwned`:
`{ownsCredential: boolean, credential?: CredentialsEntity}`. -/
structure IsOwnedResult where
  ownsCredential : Bool
  credential : Option CredentialsEntity
  deriving DecidableEq, Repr

/-- The failure `share` propagates when role resolution yields no result. -/
inductive ShareError where
  | roleNotFound : ShareError
  deriving DecidableEq, Repr

/- ----------------------------------------------------------------
   Credential sharing service: modelled collaborators
   ---------------------------------------------------------------- -/

/-- Modelled from the spec: `CredentialsService.getSharing(user,
credentialId, relations, {allowGlobalOwner})`, whose implementation is not
part of this fragment.  It "looks up an ownership-scoped sharing record for
`user` against `credentialId`"; with the elevated-privilege bypass enabled a
global owner is matched against any sharing record for the credential,
with it disabled the record must belong to the user themselves.  The
`['credentials']` relation is always loaded here, so the credential sits on
the returned record. -/
def getSharing (db : CredDb) (user : User) (credentialId : String)
    (allowGlobalOwner : Bool) : Option SharedCredentials :=
  if allowGlobalOwner ∧ user.isGlobalOwner then
    db.sharedCredentials.find? (fun s => s.credentials.id = credentialId)
  else
    db.sharedCredentials.find?
      (fun s => s.user.id = user.id ∧ s.credentials.id = credentialId)

/-- Modelled from the spec: the Role Lookup collaborator
`RoleService.get({scope, name})`, which "resolves a named role (scope +
name) to a role identifier"; yields no result when no such role exists. -/
def roleServiceGet (db : CredDb) (scope : String) (name : String) : Option Role :=
  db.roles.find? (fun r => r.scope = scope ∧ r.name = name)

/-- Modelled from the spec: the relation store's
`Db.collections.SharedCredentials.save(record)` primitive, which "persists
a new share" — an unconditional insert of the record. -/
def sharedCredentialsSave (db : CredDb) (record : SharedCredentials) : CredDb :=
  { db with sharedCredentials := db.sharedCredentials ++ [record] }

/-- Modelled from the spec: the relation store's
`Db.collections.SharedCredentials.delete({credentials: {id}, user: {id}})`
primitive, which "deletes the share record matching the exact
(credentialId, shareeId) pair" and treats deletion of zero rows as
success. -/
def sharedCredentialsDelete (db : CredDb) (credentialId : String)
    (shareeId : String) : CredDb :=
  { db with
      sharedCredentials :=
        db.sharedCredentials.filter
          (fun s => ¬(s.credentials.id = credentialId ∧ s.user.id = shareeId)) }

/- ----------------------------------------------------------------
   Credential sharing service: operations
   ---------------------------------------------------------------- -/

/-- `EECredentialsService.isOwned(user, credentialId)`: calls `getSharing`
with `allowGlobalOwner: false`; returns `{ownsCredential: false}` when no
record is found, else `{ownsCredential: true, credential}` with the
credential taken off the record. -/
def isOwned (db : CredDb) (user : User) (credentialId : String) : IsOwnedResult :=
  match getSharing db user credentialId false with
  | none => { ownsCredential := false, credential := none }
  | some sharing =>
      { ownsCredential := true, credential := some sharing.credentials }

/-- `EECredentialsService.share(credential, sharee)`: resolves the
(`credential`, `editor`) role and saves a record linking credential, sharee
and the role; the role-resolution failure is propagated (per the spec),
leaving the store untouched.  The updated store is returned alongside the
outcome. -/
def share (db : CredDb) (credential : CredentialsEntity) (sharee : User) :
    Except ShareError SharedCredentials × CredDb :=
  match roleServiceGet db "credential" "editor" with
  | none => (.error .roleNotFound, db)
  | some role =>
      let record : SharedCredentials :=
        { credentials := credential, user := sharee, role := role }
      (.ok record, sharedCredentialsSave db record)

/-- `EECredentialsService.unshare(credentialId, shareeId)`: deletes the
share record(s) matching the exact pair; total, never an error. -/
def unshare (db : CredDb) (credentialId : String) (shareeId : String) : CredDb :=
  sharedCredentialsDelete db credentialId shareeId

/- ----------------------------------------------------------------
   Helper lemmas
   ---------------------------------------------------------------- -/

theorem validateName_str_ok (db : TagDb) (s : String)
    (h1 : 1 ≤ s.length) (h2 : s.length ≤ TAG_NAME_LENGTH_LIMIT) :
    validateName db (.str s) = .ok () := by
  have hcond : ¬(s.length ≤ 0 ∨ s.length > TAG_NAME_LENGTH_LIMIT) := by
    unfold TAG_NAME_LENGTH_LIMIT at h2 ⊢
    omega
  simp only [validateName, if_neg hcond]

theorem validateName_str_err (db : TagDb) (s : String)
    (h : s.length = 0 ∨ s.length > TAG_NAME_LENGTH_LIMIT) :
    validateName db (.str s) =
      .error ⟨"Tag name must be 1 to 24 characters long.", 400⟩ := by
  have hcond : s.length ≤ 0 ∨ s.length > TAG_NAME_LENGTH_LIMIT := by
    unfold TAG_NAME_LENGTH_LIMIT at h ⊢
    omega
  simp only [validateName, if_pos hcond]

/- ----------------------------------------------------------------
   Claims about the tag-name validator
   ---------------------------------------------------------------- -/

/-- C3: `validateName` runs its checks in strict order, short-circuiting at
the first failure: an absent (`undefined`) name is rejected with status 400
(as missing); otherwise a non-string name is rejected with status 400;
otherwise a string whose length is 0 or greater than 24 is rejected with
status 400; and every string of length 1 to 24 inclusive (so also a
24-character string) is accepted, the function returning normally. -/
theorem validateName_order (db : TagDb) :
    validateName db .undef =
        .error ⟨"Property \x27name\x27 missing from request body.", 400⟩
    ∧ (∀ v : JSValue, v ≠ .undef → (∀ s, v ≠ .str s) →
        validateName db v =
          .error ⟨"Property \x27name\x27 must be a string.", 400⟩)
    ∧ (∀ s : String, s.length = 0 ∨ s.length > 24 →
        validateName db (.str s) =
          .error ⟨"Tag name must be 1 to 24 characters long.", 400⟩)
    ∧ (∀ s : String, 1 ≤ s.length → s.length ≤ 24 →
        validateName db (.str s) = .ok ()) := by
  refine ⟨rfl, ?_, ?_, ?_⟩
  · intro v hu hs
    cases v with
    | undef => exact absurd rfl hu
    | str s => exact absurd rfl (hs s)
    | null => rfl
    | bool b => rfl
    | num n => rfl
  · intro s h
    exact validateName_str_err db s (by unfold TAG_NAME_LENGTH_LIMIT; omega)
  · intro s h1 h2
    exact validateName_str_ok db s h1 (by unfold TAG_NAME_LENGTH_LIMIT; omega)

/-- Witness for C3: a concrete 24-character name is accepted against a
concrete store. -/
theorem validateName_order_witness :
    validateName ⟨[], [], []⟩ (.str "abcdefghijklmnopqrstuvwx") = .ok () :=
  (validateName_order ⟨[], [], []⟩).2.2.2 "abcdefghijklmnopqrstuvwx"
    (by decide) (by decide)

/-- C10: the outcome of `validateName` depends only on the `name` argument
and not on the store state — any two store states yield the same result —
and in particular a 1–24-character string is accepted even when a tag with
that exact name already exists in the store (no uniqueness query is
performed). -/
theorem validateName_storeIndependent :
    (∀ (db1 db2 : TagDb) (name : JSValue),
        validateName db1 name = validateName db2 name)
    ∧ (∀ (db : TagDb) (s : String), 1 ≤ s.length → s.length ≤ 24 →
        (∃ t ∈ db.tags, t.name = s) →
        validateName db (.str s) = .ok ()) := by
  refine ⟨fun db1 db2 name => rfl, fun db s h1 h2 _ => ?_⟩
  exact validateName_str_ok db s h1 (by unfold TAG_NAME_LENGTH_LIMIT; omega)

/-- Witness for C10: a store already holding a tag named "alpha" still
accepts the name "alpha". -/
theorem validateName_storeIndependent_witness :
    validateName ⟨[⟨1, "alpha"⟩], [], []⟩ (.str "alpha") = .ok () :=
  validateName_storeIndependent.2 ⟨[⟨1, "alpha"⟩], [], []⟩ "alpha"
    (by decide) (by decide) ⟨⟨1, "alpha"⟩, by decide, rfl⟩

/- ----------------------------------------------------------------
   Claim about the tag existence gate
   ---------------------------------------------------------------- -/

/-- C7: `exists` returns normally iff a tag with the given ID is found, and
raises an error with message `Tag with ID {id} does not exist.` and status
code 400 exactly when none is; the check performs no mutation (it is a pure
function of the store). -/
theorem exists_spec (db : TagDb) (id : String) :
    («exists» db id = .ok () ↔ ∃ t ∈ db.tags, toString t.id = id)
    ∧ ((¬∃ t ∈ db.tags, toString t.id = id) →
        «exists» db id = .error ⟨s!"Tag with ID {id} does not exist.", 400⟩) := by
  cases hf : db.tags.find? (fun t => toString t.id = id) with
  | none =>
      have hne : ¬∃ t ∈ db.tags, toString t.id = id := by
        rw [List.find?_eq_none] at hf
        rintro ⟨t, ht, hid⟩
        exact absurd (by simpa using hid) (hf t ht)
      have hexeq : «exists» db id =
          .error ⟨s!"Tag with ID {id} does not exist.", 400⟩ := by
        simp only [«exists», hf]
      refine ⟨⟨fun h => ?_, fun h => absurd h hne⟩, fun _ => hexeq⟩
      rw [hexeq] at h
      cases h
  | some t =>
      have ht := List.mem_of_find?_eq_some hf
      have hp : toString t.id = id := by simpa using List.find?_some hf
      have hexeq : «exists» db id = .ok () := by
        simp only [«exists», hf]
      exact ⟨⟨fun _ => ⟨t, ht, hp⟩, fun _ => hexeq⟩,
        fun hne => absurd ⟨t, ht, hp⟩ hne⟩

/-- Witness for C7: against a store holding tag 1, `exists "1"` succeeds
and `exists "2"` fails with the exact message and status 400. -/
theorem exists_spec_witness :
    «exists» ⟨[⟨1, "alpha"⟩], [], []⟩ "1" = .ok ()
    ∧ «exists» ⟨[⟨1, "alpha"⟩], [], []⟩ "2" =
        .error ⟨"Tag with ID 2 does not exist.", 400⟩ :=
  ⟨(exists_spec ⟨[⟨1, "alpha"⟩], [], []⟩ "1").1.mpr (by decide),
   (exists_spec ⟨[⟨1, "alpha"⟩], [], []⟩ "2").2 (by decide)⟩

/- ----------------------------------------------------------------
   Claim about the relation validator
   ---------------------------------------------------------------- -/

/-- C4: `validateRelations` checks the tag IDs in sequence order and, on
the first ID already linked to the workflow, immediately raises a conflict
error with status 400 naming the workflow and that tag, performing no
membership check for any later ID (the recorded check sequence stops at the
offending ID); it returns normally iff no ID in the sequence is already
linked, where "already linked" is membership of the pair in the
`workflows_tags` table. -/
theorem validateRelations_failFast (db : TagDb) (w : String) :
    (∀ (pre post : List String) (t : String),
        (∀ x ∈ pre, checkRelated db w x = false) →
        checkRelated db w t = true →
        validateRelations db w (pre ++ t :: post) =
            .error ⟨s!"Workflow ID {w} and tag ID {t} are already related.", 400⟩
        ∧ validateRelationsChecks db w (pre ++ t :: post) = pre ++ [t])
    ∧ (∀ ids : List String,
        validateRelations db w ids = .ok () ↔
          ∀ x ∈ ids, checkRelated db w x = false)
    ∧ (∀ x : String, checkRelated db w x = true ↔
          ∃ l ∈ db.links, l.workflowId = w ∧ l.tagId = x) := by
  refine ⟨?_, ?_, ?_⟩
  · intro pre post t hpre ht
    induction pre with
    | nil =>
        constructor
        · simp only [List.nil_append, validateRelations, ht]
          rfl
        · simp only [List.nil_append, validateRelationsChecks, ht]
          rfl
    | cons a as ih =>
        have ha : checkRelated db w a = false := hpre a (List.mem_cons_self a as)
        have has : ∀ x ∈ as, checkRelated db w x = false :=
          fun x hx => hpre x (List.mem_cons_of_mem a hx)
        have ih2 := ih has
        constructor
        · rw [List.cons_append]
          simp only [validateRelations, ha]
          simpa using ih2.1
        · rw [List.cons_append]
          simp only [validateRelationsChecks, ha]
          simpa using ih2.2
  · intro ids
    induction ids with
    | nil => simp [validateRelations]
    | cons a as ih =>
        by_cases ha : checkRelated db w a = true
        · simp [validateRelations, ha]
        · have ha' : checkRelated db w a = false := by
            simpa using ha
          simp [validateRelations, ha', ih]
  · intro x
    simp only [checkRelated, gt_iff_lt, decide_eq_true_eq, List.length_pos, ne_eq]
    constructor
    · intro h
      match hne : db.links.filter
          (fun l => l.workflowId = w ∧ l.tagId = x) with
      | [] => exact absurd hne h
      | l :: rest =>
          have hl : l ∈ db.links.filter
              (fun l => l.workflowId = w ∧ l.tagId = x) := by
            rw [hne]; exact List.mem_cons_self l rest
          have := List.mem_filter.mp hl
          exact ⟨l, this.1, by simpa using this.2⟩
    · rintro ⟨l, hl, hw, hx⟩ hnil
      have : l ∈ db.links.filter
          (fun l => l.workflowId = w ∧ l.tagId = x) :=
        List.mem_filter.mpr ⟨hl, by simp [hw, hx]⟩
      rw [hnil] at this
      cases this

/-- Witness for C4: with the pair (w1, t1) already in the link table, the
sequence [t0, t1, t2] fails naming t1 and only t0 and t1 are checked. -/
theorem validateRelations_failFast_witness :
    validateRelations ⟨[], [⟨"w1", "t1"⟩], []⟩ "w1" (["t0"] ++ "t1" :: ["t2"]) =
        .error ⟨"Workflow ID w1 and tag ID t1 are already related.", 400⟩
    ∧ validateRelationsChecks ⟨[], [⟨"w1", "t1"⟩], []⟩ "w1"
        (["t0"] ++ "t1" :: ["t2"]) = ["t0"] ++ ["t1"] :=
  (validateRelations_failFast ⟨[], [⟨"w1", "t1"⟩], []⟩ "w1").1 ["t0"] ["t2"] "t1"
    (by decide) (by decide)

/- ----------------------------------------------------------------
   Claims about sortByRequestOrder
   ---------------------------------------------------------------- -/

theorem foldl_tagMap_eq_of_no_match (ts : List TagEntity)
    (acc : String → Option TagEntity) (key : String)
    (h : ∀ t ∈ ts, toString t.id ≠ key) :
    ts.foldl
      (fun acc tag => fun key => if key = toString tag.id then some tag else acc key)
      acc key = acc key := by
  induction ts generalizing acc with
  | nil => rfl
  | cons t ts ih =>
      rw [List.foldl_cons,
        ih _ (fun u hu => h u (List.mem_cons_of_mem t hu))]
      have hne : ¬(key = toString t.id) :=
        fun hk => h t (List.mem_cons_self t ts) hk.symm
      simp [hne]

theorem buildTagMap_eq_none (ts : List TagEntity) (key : String)
    (h : ∀ t ∈ ts, toString t.id ≠ key) :
    buildTagMap ts key = none :=
  foldl_tagMap_eq_of_no_match ts (fun _ => none) key h

theorem buildTagMap_last (pre : List TagEntity) (t : TagEntity)
    (post : List TagEntity) (key : String) (hkey : toString t.id = key)
    (hpost : ∀ u ∈ post, toString u.id ≠ key) :
    buildTagMap (pre ++ t :: post) key = some t := by
  unfold buildTagMap
  rw [List.foldl_append, List.foldl_cons,
    foldl_tagMap_eq_of_no_match post _ key hpost]
  simp [hkey.symm]

/-- C5: `sortByRequestOrder` returns exactly one slot per requested ID, in
request order: when the (unique, by the primary-key hypothesis) tag whose
stringified ID equals `tagIds[i]` is in the collection, slot `i` holds it;
when no tag matches `tagIds[i]`, slot `i` is `undefined` (`none`) rather
than filtered out. -/
theorem sortByRequestOrder_spec (tagsResponse : List TagEntity)
    (tagIds : List String)
    (hnd : (tagsResponse.map (fun t => toString t.id)).Nodup) :
    (sortByRequestOrder tagsResponse tagIds).length = tagIds.length
    ∧ (∀ (i : Nat) (key : String), tagIds[i]? = some key →
        (∀ t ∈ tagsResponse, toString t.id = key →
            (sortByRequestOrder tagsResponse tagIds)[i]? = some (some t))
        ∧ ((∀ t ∈ tagsResponse, toString t.id ≠ key) →
            (sortByRequestOrder tagsResponse tagIds)[i]? = some none)) := by
  constructor
  · simp [sortByRequestOrder]
  · intro i key hi
    constructor
    · intro t ht hkey
      obtain ⟨pre, post, rfl⟩ := List.append_of_mem ht
      have hpost : ∀ u ∈ post, toString u.id ≠ key := by
        rw [List.map_append, List.map_cons] at hnd
        have hcons := hnd.of_append_right
        have hnotmem := (List.nodup_cons.mp hcons).1
        intro u hu hukey
        exact hnotmem (by
          rw [hkey, ← hukey]
          exact List.mem_map_of_mem _ hu)
      simp only [sortByRequestOrder, List.getElem?_map, hi, Option.map_some']
      rw [buildTagMap_last pre t post key hkey hpost]
    · intro hnone
      simp only [sortByRequestOrder, List.getElem?_map, hi, Option.map_some']
      rw [buildTagMap_eq_none tagsResponse key hnone]

/-- Witness for C5: with tags 2 and 1 in store order [2, 1] and request
order [1, 2, 9], the output has three slots: tag 1, tag 2, and `none` for
the absent ID 9. -/
theorem sortByRequestOrder_spec_witness :
    (sortByRequestOrder [⟨2, "b"⟩, ⟨1, "a"⟩] ["1", "2", "9"]).length = 3
    ∧ (sortByRequestOrder [⟨2, "b"⟩, ⟨1, "a"⟩] ["1", "2", "9"])[0]? =
        some (some ⟨1, "a"⟩)
    ∧ (sortByRequestOrder [⟨2, "b"⟩, ⟨1, "a"⟩] ["1", "2", "9"])[1]? =
        some (some ⟨2, "b"⟩)
    ∧ (sortByRequestOrder [⟨2, "b"⟩, ⟨1, "a"⟩] ["1", "2", "9"])[2]? =
        some none := by
  have h := sortByRequestOrder_spec [⟨2, "b"⟩, ⟨1, "a"⟩] ["1", "2", "9"]
    (by decide)
  exact ⟨h.1, (h.2 0 "1" rfl).1 ⟨1, "a"⟩ (by decide) (by decide),
    (h.2 1 "2" rfl).1 ⟨2, "b"⟩ (by decide) (by decide),
    (h.2 2 "9" rfl).2 (by decide)⟩

/-- C9: when the collection holds several tags with the same stringified
ID, the slot for that ID is the last such tag in the collection — later
entries overwrite earlier ones while the lookup map is built. -/
theorem sortByRequestOrder_lastWins (pre post : List TagEntity)
    (t : TagEntity) (tagIds : List String) (i : Nat) (key : String)
    (hkey : toString t.id = key)
    (hpost : ∀ u ∈ post, toString u.id ≠ key)
    (hi : tagIds[i]? = some key) :
    (sortByRequestOrder (pre ++ t :: post) tagIds)[i]? = some (some t) := by
  simp only [sortByRequestOrder, List.getElem?_map, hi, Option.map_some']
  rw [buildTagMap_last pre t post key hkey hpost]

/-- Witness for C9: two tags with ID 7; the lookup for "7" yields the
second (last) one. -/
theorem sortByRequestOrder_lastWins_witness :
    (sortByRequestOrder ([⟨7, "first"⟩] ++ ⟨7, "second"⟩ :: []) ["7"])[0]? =
      some (some ⟨7, "second"⟩) :=
  sortByRequestOrder_lastWins [⟨7, "first"⟩] [] ⟨7, "second"⟩ ["7"] 0 "7"
    (by decide) (by decide) rfl

/- ----------------------------------------------------------------
   Claim about the usage-count aggregation
   ---------------------------------------------------------------- -/

theorem joinCell_count (ws : List WorkflowEntity) (wid : String) :
    (((if (ws.filter (fun w => w.id = wid)).isEmpty then
          [(none : Option String)]
        else (ws.filter (fun w => w.id = wid)).map (fun w => some w.id))).filter
      (fun o => o.isSome)).length = (ws.filter (fun w => w.id = wid)).length := by
  by_cases h : (ws.filter (fun w => w.id = wid)).isEmpty
  · rw [if_pos h]
    rw [List.isEmpty_iff] at h
    simp [h]
  · rw [if_neg h]
    have hall : ((ws.filter (fun w => w.id = wid)).map
        (fun w => some w.id)).filter (fun o => o.isSome) =
          (ws.filter (fun w => w.id = wid)).map (fun w => some w.id) :=
      List.filter_eq_self.mpr (by
        intro a ha
        obtain ⟨w, _, rfl⟩ := List.mem_map.mp ha
        rfl)
    rw [hall, List.length_map]

theorem leftJoin_count (db : TagDb) (t : TagEntity) :
    ((leftJoinWorkflowIds db t).filter (fun o => o.isSome)).length =
      ((db.links.filter (fun l => l.tagId = toString t.id)).map
        (fun l => (db.workflows.filter (fun w => w.id = l.workflowId)).length)).sum := by
  unfold leftJoinWorkflowIds
  by_cases hemp : (db.links.filter (fun l => l.tagId = toString t.id)).isEmpty
  · rw [List.isEmpty_iff] at hemp
    simp [hemp]
  · rw [if_neg (by rw [List.isEmpty_iff] at hemp ⊢; exact hemp)]
    rw [List.filter_flatMap, List.length_flatMap]
    apply congrArg
    apply List.map_congr_left
    intro l _
    exact joinCell_count db.workflows l.workflowId

theorem countP_or_disjoint {α : Type} (l : List α) (p q : α → Bool)
    (h : ∀ a ∈ l, ¬(p a = true ∧ q a = true)) :
    l.countP (fun a => p a || q a) = l.countP p + l.countP q := by
  induction l with
  | nil => simp
  | cons a l ih =>
      have ha := h a (List.mem_cons_self a l)
      have hl : ∀ x ∈ l, ¬(p x = true ∧ q x = true) :=
        fun x hx => h x (List.mem_cons_of_mem a hx)
      simp only [List.countP_cons, ih hl]
      cases hp : p a <;> cases hq : q a <;> simp_all <;> omega

theorem sum_countP_eq (ws : List WorkflowEntity) (ids : List String)
    (hnd : ids.Nodup) :
    (ids.map (fun i => ws.countP (fun w => w.id = i))).sum
      = ws.countP (fun w => ids.any (fun i => w.id = i)) := by
  induction ids with
  | nil => simp [List.countP_false]
  | cons i ids ih =>
      obtain ⟨hnotmem, hnd'⟩ := List.nodup_cons.mp hnd
      rw [List.map_cons, List.sum_cons, ih hnd']
      rw [← countP_or_disjoint ws (fun w => w.id = i)
        (fun w => ids.any (fun j => w.id = j)) ?_]
      · apply List.countP_congr
        intro w _
        simp
      · intro w _ hpq
        obtain ⟨h1, h2⟩ := hpq
        rw [decide_eq_true_eq] at h1
        obtain ⟨j, hj, hwj⟩ := List.any_eq_true.mp h2
        rw [decide_eq_true_eq] at hwj
        have hij : i = j := by rw [← h1]; exact hwj
        exact hnotmem (by rw [hij]; exact hj)

theorem nodup_wf_of_pairs (links : List WorkflowTagLink) (s : String)
    (hnd : (links.map (fun l => (l.workflowId, l.tagId))).Nodup) :
    ((links.filter (fun l => l.tagId = s)).map (fun l => l.workflowId)).Nodup := by
  induction links with
  | nil => simp
  | cons l ls ih =>
      rw [List.map_cons] at hnd
      obtain ⟨hnotmem, hnd'⟩ := List.nodup_cons.mp hnd
      by_cases hs : l.tagId = s
      · rw [List.filter_cons_of_pos (by simp [hs]), List.map_cons]
        refine List.nodup_cons.mpr ⟨?_, ih hnd'⟩
        intro hmem
        obtain ⟨l', hl', hwf⟩ := List.mem_map.mp hmem
        have hl'mem := (List.mem_filter.mp hl').1
        have hl's : l'.tagId = s := by
          simpa using (List.mem_filter.mp hl').2
        apply hnotmem
        have hpair : (l.workflowId, l.tagId) = (l'.workflowId, l'.tagId) := by
          rw [hwf, hs, hl's]
        rw [hpair]
        exact List.mem_map_of_mem _ hl'mem
      · rw [List.filter_cons_of_neg (by simp [hs])]
        exact ih hnd'

theorem usageCount_eq (db : TagDb) (t : TagEntity)
    (hnd : ((db.links.filter (fun l => l.tagId = toString t.id)).map
        (fun l => l.workflowId)).Nodup) :
    ((leftJoinWorkflowIds db t).filter (fun o => o.isSome)).length =
      (db.workflows.filter
        (fun w => ∃ l ∈ db.links,
            l.workflowId = w.id ∧ l.tagId = toString t.id)).length := by
  rw [leftJoin_count]
  have step1 : ((db.links.filter (fun l => l.tagId = toString t.id)).map
      (fun l => (db.workflows.filter (fun w => w.id = l.workflowId)).length)).sum =
      ((db.links.filter (fun l => l.tagId = toString t.id)).map
        (fun l => db.workflows.countP (fun w => w.id = l.workflowId))).sum := by
    apply congrArg
    apply List.map_congr_left
    intro l _
    rw [List.countP_eq_length_filter]
  rw [step1]
  have step2 : ((db.links.filter (fun l => l.tagId = toString t.id)).map
      (fun l => db.workflows.countP (fun w => w.id = l.workflowId))).sum =
      (((db.links.filter (fun l => l.tagId = toString t.id)).map
        (fun l => l.workflowId)).map
          (fun i => db.workflows.countP (fun w => w.id = i))).sum := by
    rw [List.map_map]
    rfl
  rw [step2, sum_countP_eq db.workflows _ hnd, ← List.countP_eq_length_filter]
  apply List.countP_congr
  intro w _
  simp only [List.any_eq_true, List.mem_map, List.mem_filter,
    decide_eq_true_eq]
  constructor
  · rintro ⟨i, ⟨l, ⟨hl, hls⟩, rfl⟩, hwi⟩
    exact ⟨l, hl, hwi.symm, by simpa using hls⟩
  · rintro ⟨l, hl, hwf, hls⟩
    exact ⟨l.workflowId, ⟨l, ⟨hl, by simpa using hls⟩, rfl⟩, hwf.symm⟩

/-- C8: under the invariant that a (workflowId, tagId) pair appears at most
once in the link table, `getAllTagsWithUsageCount` returns one row per
existing tag, linked or not, whose `usageCount` is the number of distinct
workflows linked to that tag; a tag with zero linked workflows appears with
`usageCount = 0` rather than being omitted. -/
theorem getAllTagsWithUsageCount_spec (db : TagDb)
    (hnd : (db.links.map (fun l => (l.workflowId, l.tagId))).Nodup) :
    getAllTagsWithUsageCount db =
      db.tags.map (fun t =>
        { id := t.id, name := t.name,
          usageCount := (db.workflows.filter
            (fun w => ∃ l ∈ db.links,
                l.workflowId = w.id ∧ l.tagId = toString t.id)).length })
    ∧ ∀ t ∈ db.tags, (∀ l ∈ db.links, l.tagId ≠ toString t.id) →
        (⟨t.id, t.name, 0⟩ : TagUsageRow) ∈ getAllTagsWithUsageCount db := by
  constructor
  · unfold getAllTagsWithUsageCount
    apply List.map_congr_left
    intro t _
    have := usageCount_eq db t (nodup_wf_of_pairs db.links (toString t.id) hnd)
    rw [this]
  · intro t ht hnone
    have hLnil : db.links.filter (fun l => l.tagId = toString t.id) = [] :=
      List.filter_eq_nil_iff.mpr (fun l hl => by simpa using hnone l hl)
    have hzero : ((leftJoinWorkflowIds db t).filter (fun o => o.isSome)).length = 0 := by
      unfold leftJoinWorkflowIds
      rw [hLnil]
      rfl
    unfold getAllTagsWithUsageCount
    exact List.mem_map.mpr ⟨t, ht, by rw [hzero]⟩

/-- Witness for C8: tag 1 is linked to workflows w1 and w2, tag 2 to none;
the query reports usage counts 2 and 0, one row per tag. -/
theorem getAllTagsWithUsageCount_spec_witness :
    getAllTagsWithUsageCount
        ⟨[⟨1, "a"⟩, ⟨2, "b"⟩], [⟨"w1", "1"⟩, ⟨"w2", "1"⟩], [⟨"w1"⟩, ⟨"w2"⟩]⟩ =
      [⟨1, "a", 2⟩, ⟨2, "b", 0⟩]
    ∧ (⟨2, "b", 0⟩ : TagUsageRow) ∈ getAllTagsWithUsageCount
        ⟨[⟨1, "a"⟩, ⟨2, "b"⟩], [⟨"w1", "1"⟩, ⟨"w2", "1"⟩], [⟨"w1"⟩, ⟨"w2"⟩]⟩ := by
  have h := getAllTagsWithUsageCount_spec
    ⟨[⟨1, "a"⟩, ⟨2, "b"⟩], [⟨"w1", "1"⟩, ⟨"w2", "1"⟩], [⟨"w1"⟩, ⟨"w2"⟩]⟩
    (by decide)
  refine ⟨?_, h.2 ⟨2, "b"⟩ (by decide) (by decide)⟩
  rw [h.1]
  decide

/- ----------------------------------------------------------------
   Claims about the credential sharing service
   ---------------------------------------------------------------- -/

/-- C1: for a credential C whose owner O is recorded in the store (an
ownership-scoped sharing record for O on C), `isOwned(O, C.id)` reports
`ownsCredential = true` with the credential attached; for a user with
neither ownership nor a sharing record on C it reports
`ownsCredential = false` with no credential attached; and the lookup is
performed with the global-owner elevated-privilege bypass disabled — the
result never depends on the caller's global-owner flag.  The operation is
read-only: it returns no updated store. -/
theorem isOwned_spec :
    (∀ (db : CredDb) (O : User) (C : CredentialsEntity) (s : SharedCredentials),
        s ∈ db.sharedCredentials →
        s.user.id = O.id → s.credentials.id = C.id →
        s.role.scope = "credential" → s.role.name = "owner" →
        (isOwned db O C.id).ownsCredential = true
        ∧ ∃ c, (isOwned db O C.id).credential = some c ∧ c.id = C.id)
    ∧ (∀ (db : CredDb) (U : User) (credentialId : String),
        (∀ s ∈ db.sharedCredentials,
            ¬(s.user.id = U.id ∧ s.credentials.id = credentialId)) →
        isOwned db U credentialId =
          { ownsCredential := false, credential := none })
    ∧ (∀ (db : CredDb) (u : User) (credentialId : String) (b : Bool),
        isOwned db { u with isGlobalOwner := b } credentialId
          = isOwned db u credentialId) := by
  have key : ∀ (db : CredDb) (u : User) (credentialId : String),
      isOwned db u credentialId =
        match db.sharedCredentials.find?
            (fun s => s.user.id = u.id ∧ s.credentials.id = credentialId) with
        | none => { ownsCredential := false, credential := none }
        | some sharing =>
            { ownsCredential := true, credential := some sharing.credentials } := by
    intro db u credentialId
    unfold isOwned getSharing
    rw [if_neg (by simp)]
  refine ⟨?_, ?_, ?_⟩
  · intro db O C s hs hu hc _ _
    rw [key]
    cases hf : db.sharedCredentials.find?
        (fun r => r.user.id = O.id ∧ r.credentials.id = C.id) with
    | none =>
        rw [List.find?_eq_none] at hf
        exact absurd (by simp [hu, hc]) (hf s hs)
    | some r =>
        have hp := List.find?_some hf
        simp only [decide_eq_true_eq] at hp
        exact ⟨rfl, r.credentials, rfl, hp.2⟩
  · intro db U credentialId hno
    rw [key]
    have hf : db.sharedCredentials.find?
        (fun s => s.user.id = U.id ∧ s.credentials.id = credentialId) = none := by
      rw [List.find?_eq_none]
      intro s hs
      simpa using hno s hs
    rw [hf]
  · intro db u credentialId b
    rfl

/-- Witness for C1: o1 holds the owner-role record for c1 and is reported
as owning it; u2 holds no record and is not. -/
theorem isOwned_spec_witness :
    ((isOwned ⟨[⟨⟨"c1"⟩, ⟨"o1", false⟩, ⟨"credential", "owner"⟩⟩], []⟩
        ⟨"o1", false⟩ "c1").ownsCredential = true
      ∧ ∃ c, (isOwned ⟨[⟨⟨"c1"⟩, ⟨"o1", false⟩, ⟨"credential", "owner"⟩⟩], []⟩
          ⟨"o1", false⟩ "c1").credential = some c ∧ c.id = "c1")
    ∧ isOwned ⟨[⟨⟨"c1"⟩, ⟨"o1", false⟩, ⟨"credential", "owner"⟩⟩], []⟩
        ⟨"u2", false⟩ "c1" = { ownsCredential := false, credential := none } :=
  ⟨isOwned_spec.1 ⟨[⟨⟨"c1"⟩, ⟨"o1", false⟩, ⟨"credential", "owner"⟩⟩], []⟩
      ⟨"o1", false⟩ ⟨"c1"⟩ ⟨⟨"c1"⟩, ⟨"o1", false⟩, ⟨"credential", "owner"⟩⟩
      (by decide) rfl rfl rfl rfl,
    isOwned_spec.2.1 ⟨[⟨⟨"c1"⟩, ⟨"o1", false⟩, ⟨"credential", "owner"⟩⟩], []⟩
      ⟨"u2", false⟩ "c1" (by decide)⟩

/-- C2: `share(C, U)` followed by `unshare(C.id, U.id)` leaves no share
record for the pair (C, U); a second `unshare` on the same pair is a no-op
success (deleting zero rows is not an error — `unshare` is total and, with
no matching record, returns the store unchanged); and `unshare` deletes
exactly the records matching the (credentialId, shareeId) pair, keeping
every other record. -/
theorem share_unshare_spec (db : CredDb) (C : CredentialsEntity) (U : User) :
    (∀ (rec : SharedCredentials) (db1 : CredDb),
        share db C U = (.ok rec, db1) →
        ∀ s ∈ (unshare db1 C.id U.id).sharedCredentials,
          ¬(s.credentials.id = C.id ∧ s.user.id = U.id))
    ∧ (∀ credentialId shareeId : String,
        unshare (unshare db credentialId shareeId) credentialId shareeId
          = unshare db credentialId shareeId)
    ∧ (∀ (credentialId shareeId : String) (s : SharedCredentials),
        s ∈ (unshare db credentialId shareeId).sharedCredentials ↔
          s ∈ db.sharedCredentials
          ∧ ¬(s.credentials.id = credentialId ∧ s.user.id = shareeId))
    ∧ (∀ credentialId shareeId : String,
        (∀ s ∈ db.sharedCredentials,
            ¬(s.credentials.id = credentialId ∧ s.user.id = shareeId)) →
        unshare db credentialId shareeId = db) := by
  refine ⟨?_, ?_, ?_, ?_⟩
  · intro rec db1 _ s hs
    have := List.mem_filter.mp hs
    exact of_decide_eq_true this.2
  · intro cid sid
    unfold unshare sharedCredentialsDelete
    rw [List.filter_eq_self.mpr (fun a ha => (List.mem_filter.mp ha).2)]
  · intro cid sid s
    unfold unshare sharedCredentialsDelete
    rw [List.mem_filter]
    simp only [decide_eq_true_eq]
  · intro cid sid h
    unfold unshare sharedCredentialsDelete
    rw [List.filter_eq_self.mpr (fun a ha => decide_eq_true (h a ha))]

/-- Witness for C2: sharing c1 with u1 in an empty store and unsharing it
leaves no record for the pair, and a second unshare changes nothing. -/
theorem share_unshare_spec_witness :
    (∀ s ∈ (unshare ⟨[⟨⟨"c1"⟩, ⟨"u1", false⟩, ⟨"credential", "editor"⟩⟩],
          [⟨"credential", "editor"⟩]⟩ "c1" "u1").sharedCredentials,
        ¬(s.credentials.id = "c1" ∧ s.user.id = "u1"))
    ∧ unshare (unshare ⟨[], [⟨"credential", "editor"⟩]⟩ "c1" "u1") "c1" "u1"
        = unshare ⟨[], [⟨"credential", "editor"⟩]⟩ "c1" "u1" :=
  ⟨(share_unshare_spec ⟨[], [⟨"credential", "editor"⟩]⟩ ⟨"c1"⟩ ⟨"u1", false⟩).1
      ⟨⟨"c1"⟩, ⟨"u1", false⟩, ⟨"credential", "editor"⟩⟩
      ⟨[⟨⟨"c1"⟩, ⟨"u1", false⟩, ⟨"credential", "editor"⟩⟩],
        [⟨"credential", "editor"⟩]⟩ rfl,
    (share_unshare_spec ⟨[], [⟨"credential", "editor"⟩]⟩ ⟨"c1"⟩
      ⟨"u1", false⟩).2.1 "c1" "u1"⟩

/-- C6: `share` resolves the role with scope `credential` and name
`editor`; when role resolution yields no result the failure is propagated
and nothing is persisted (the store is returned unchanged); otherwise it
persists and returns a record linking the credential, the sharee and the
resolved role — with no check for a pre-existing share on the same pair:
the number of records for the pair always grows by exactly one. -/
theorem share_semantics (db : CredDb) (C : CredentialsEntity) (U : User) :
    (roleServiceGet db "credential" "editor" = none →
        share db C U = (.error .roleNotFound, db))
    ∧ (∀ role, roleServiceGet db "credential" "editor" = some role →
        role.scope = "credential" ∧ role.name = "editor"
        ∧ share db C U =
            (.ok ⟨C, U, role⟩,
              { db with sharedCredentials :=
                  db.sharedCredentials ++ [⟨C, U, role⟩] }))
    ∧ (∀ role, roleServiceGet db "credential" "editor" = some role →
        (share db C U).2.sharedCredentials.countP
            (fun s => s.credentials.id = C.id ∧ s.user.id = U.id)
          = db.sharedCredentials.countP
              (fun s => s.credentials.id = C.id ∧ s.user.id = U.id) + 1) := by
  refine ⟨?_, ?_, ?_⟩
  · intro h
    simp [share, h]
  · intro role h
    have hfind := h
    unfold roleServiceGet at hfind
    have hp := List.find?_some hfind
    simp only [decide_eq_true_eq] at hp
    exact ⟨hp.1, hp.2, by simp [share, h, sharedCredentialsSave]⟩
  · intro role h
    simp [share, h, sharedCredentialsSave, List.countP_append, List.countP_cons]

/-- Witness for C6: against a store without the editor role, `share` fails
and persists nothing; with it, `share` appends exactly the expected
record. -/
theorem share_semantics_witness :
    share ⟨[], []⟩ ⟨"c1"⟩ ⟨"u1", false⟩ = (.error .roleNotFound, ⟨[], []⟩)
    ∧ share ⟨[], [⟨"credential", "editor"⟩]⟩ ⟨"c1"⟩ ⟨"u1", false⟩ =
        (.ok ⟨⟨"c1"⟩, ⟨"u1", false⟩, ⟨"credential", "editor"⟩⟩,
          ⟨[⟨⟨"c1"⟩, ⟨"u1", false⟩, ⟨"credential", "editor"⟩⟩],
            [⟨"credential", "editor"⟩]⟩) := by
  refine ⟨(share_semantics ⟨[], []⟩ ⟨"c1"⟩ ⟨"u1", false⟩).1 rfl, ?_⟩
  have h := (share_semantics ⟨[], [⟨"credential", "editor"⟩]⟩ ⟨"c1"⟩
    ⟨"u1", false⟩).2.1 ⟨"credential", "editor"⟩ rfl
  exact h.2.2
